import Mathlib

/-!
Verification development for the `generateReport` action of the gs-org plugin.

The TypeScript source consists of one file exporting `generateTeamReport`
(report assembly: filter stored memories, sort by timestamp, group by team
member, render per-member sections with a model-generated analysis and
fallbacks) and the `generateReport` action whose `handler` classifies the
request, validates the standup type and delivers the report through a
callback.

External collaborators are modelled as explicit function parameters:
* `jp`  — `JSON.parse` applied to an `answers` string, `none` meaning the
  call throws (the object is abstracted to its `Object.entries` key/value
  list);
* `pd`  — `new Date(s).getTime()`, `none` meaning the result is `NaN`
  (an unparseable timestamp);
* `fd`  — `new Date(s).toLocaleString()` rendering of a timestamp;
* `sg`  — `JSON.stringify(processedUpdates, null, 2)`;
* `uM`  — `runtime.useModel(ModelType.TEXT_LARGE, ...)`, `Except.error`
  meaning the call throws;
* `fetch` — the result of `runtime.getMemories(...)`, `Except.error`
  meaning the call throws.

JavaScript string primitives that the kernel cannot evaluate are modelled
executably: `jsToLowerCase` for `toLowerCase`, `jsTrim` for `trim`.
`Array.prototype.sort` (stable since ES2019) is modelled by a stable
insertion sort on the JS comparator; a comparison involving `NaN` is
treated as `0` (elements kept in their current relative order).
-/

/-- The `TeamMemberUpdate` record stored inside a memory's content.
Optional fields model fields that may be absent on the loosely typed record. -/
structure TeamMemberUpdate where
  teamMemberId : String
  teamMemberName : Option String
  serverName : Option String
  checkInType : Option String
  timestamp : String
  answers : Option String
deriving DecidableEq

/-- The loosely typed `memory.content` object: a type tag, an optional
embedded update record, and an optional message text. -/
structure MemoryContent where
  type : Option String
  update : Option TeamMemberUpdate
  text : Option String
deriving DecidableEq

/-- A stored memory / incoming message. -/
structure Memory where
  content : MemoryContent
  roomId : Option String
deriving DecidableEq

/-- JavaScript `toLowerCase`, restricted to the per-character lowering the
classification strings need. -/
def jsToLowerCase (s : String) : String :=
  String.mk (s.data.map Char.toLower)

/-- JavaScript `trim`: drop whitespace from both ends. -/
def jsTrim (s : String) : String :=
  String.mk ((((s.data.dropWhile Char.isWhitespace).reverse).dropWhile
    Char.isWhitespace).reverse)

/-- JavaScript truthiness of an optional string: `undefined`/missing and the
empty string are falsy. -/
def jsTruthyOpt : Option String → Bool
  | none => false
  | some s => !(s == "")

/-- JavaScript `a || b` on an optional string `a` and a string `b`. -/
def jsOrStr : Option String → String → String
  | none, b => b
  | some s, b => if s == "" then b else s

/-- The filter predicate of `generateTeamReport` (source lines 36-47): the
requested type and the record's own `checkInType` are computed but the
category-equality check is commented out, so only the content type tag is
tested. -/
def updateFilter (standupType : String) (m : Memory) : Bool :=
  let contentType := m.content.type
  let requestedType := jsToLowerCase standupType
  let checkInType := m.content.update.bind (fun u => u.checkInType)
  contentType == some "team-member-update"

/-- The filtered update records before sorting: keep memories passing
`updateFilter`, project the `update` field, drop records where it is absent
(`.filter((update) => !!update)`). -/
def rawUpdates (memories : List Memory) (standupType : String) :
    List TeamMemberUpdate :=
  (memories.filter (updateFilter standupType)).filterMap
    (fun m => m.content.update)

/-- The JS sort comparator `(a, b) => time(b) - time(a)` read as an "a may
stay before b" test: true when `time b ≤ time a` (descending), and true
(comparator value treated as 0, order kept) when either side is `NaN`. -/
def jsLe (pd : String → Option Int) (a b : TeamMemberUpdate) : Bool :=
  match pd a.timestamp, pd b.timestamp with
  | some x, some y => decide (y ≤ x)
  | _, _ => true

/-- Stable insertion of an element into a list according to a boolean
"may precede" test. -/
def insertDesc (le : TeamMemberUpdate → TeamMemberUpdate → Bool)
    (a : TeamMemberUpdate) : List TeamMemberUpdate → List TeamMemberUpdate
  | [] => [a]
  | b :: l => if le a b then a :: b :: l else b :: insertDesc le a l

/-- Stable sort (model of `Array.prototype.sort` with the timestamp
comparator). -/
def sortByDesc (le : TeamMemberUpdate → TeamMemberUpdate → Bool) :
    List TeamMemberUpdate → List TeamMemberUpdate
  | [] => []
  | a :: l => insertDesc le a (sortByDesc le l)

/-- The `updates` array of `generateTeamReport`: filtered, projected and
sorted newest-first. -/
def updatesOf (pd : String → Option Int) (memories : List Memory)
    (standupType : String) : List TeamMemberUpdate :=
  sortByDesc (jsLe pd) (rawUpdates memories standupType)

/-- One step of building `updatesByMember`: append the record to its
member's list, creating the entry on first sight (`Object.entries` of a JS
object enumerates non-index keys in insertion order). -/
def addOne (acc : List (String × List TeamMemberUpdate))
    (u : TeamMemberUpdate) : List (String × List TeamMemberUpdate) :=
  if u.teamMemberId ∈ acc.map Prod.fst then
    acc.map (fun e => if e.1 = u.teamMemberId then (e.1, e.2 ++ [u]) else e)
  else acc ++ [(u.teamMemberId, [u])]

/-- `updatesByMember` as an ordered association list. -/
def groupByMember (us : List TeamMemberUpdate) :
    List (String × List TeamMemberUpdate) :=
  us.foldl addOne []

/-- First-occurrence deduplication of a key list. -/
def firstOccKeys (l : List String) : List String :=
  l.foldl (fun acc k => if k ∈ acc then acc else acc ++ [k]) []

/-- The value of `update.answers ? JSON.parse(update.answers) : {}`:
a missing or empty `answers` string yields the empty object, otherwise the
(fallible) parse runs. -/
def answersVal (jp : String → Option (List (String × String)))
    (u : TeamMemberUpdate) : Option (List (String × String)) :=
  match u.answers with
  | none => some []
  | some s => if s == "" then some [] else jp s

/-- An element of the `processedUpdates` array: either the record with its
answers decoded, or (when `JSON.parse` threw) the raw record fallback. -/
inductive ProcessedUpdate where
  | parsed (teamMemberId : String) (teamMemberName : Option String)
      (serverName : Option String) (checkInType : Option String)
      (timestamp : String) (answers : List (String × String))
  | raw (update : TeamMemberUpdate)
deriving DecidableEq

/-- Per-record decode step (source lines 81-98). -/
def processOne (jp : String → Option (List (String × String)))
    (u : TeamMemberUpdate) : ProcessedUpdate :=
  match answersVal jp u with
  | some answers =>
      ProcessedUpdate.parsed u.teamMemberId u.teamMemberName u.serverName
        u.checkInType u.timestamp answers
  | none => ProcessedUpdate.raw u

/-- The fixed instruction part of the per-member analysis prompt. -/
def analysisPromptHeader : String :=
  "Analyze these team member updates and provide a detailed productivity report.\n      \n      The \"answers\" field contains all the update information in a question-answer format.\n      \n      Highlight the following in your analysis:\n      1. Overall Progress: What major tasks/milestones were completed?\n      2. Current Focus: What are they actively working on?\n      3. Productivity Analysis: Are they meeting deadlines? Any patterns in their work?\n      4. Blockers Impact: How are blockers affecting their progress?\n      5. Recommendations: What could improve their productivity?\n\n      Updates data: "

/-- Rendering of a decoded answers object, one `▫️` line per entry. -/
def answerLines (kvs : List (String × String)) : String :=
  String.join (kvs.map (fun kv => "▫️ **" ++ kv.1 ++ "**: " ++ kv.2 ++ "\n"))

/-- The answers block shared by both display loops: decoded lines on
success, the fixed error line when `JSON.parse` throws. -/
def answersBlock (jp : String → Option (List (String × String)))
    (u : TeamMemberUpdate) : String :=
  match answersVal jp u with
  | some kvs => answerLines kvs
  | none => "▫️ Error parsing update details\n"

/-- One entry of the `Recent Updates` list (source lines 127-141). -/
def renderRecent (jp : String → Option (List (String × String)))
    (fd : String → String) (u : TeamMemberUpdate) : String :=
  "\n🕒 " ++ fd u.timestamp ++ "\n" ++ answersBlock jp u

/-- One entry of the raw-updates fallback (source lines 146-160). -/
def renderRaw (jp : String → Option (List (String × String)))
    (fd : String → String) (u : TeamMemberUpdate) : String :=
  "Update from " ++ fd u.timestamp ++ ":\n" ++ answersBlock jp u

/-- `memberUpdates.slice(0, 3)`: the entries shown as recent. -/
def recentUpdates (us : List TeamMemberUpdate) : List TeamMemberUpdate :=
  us.take 3

/-- One member's section of the report (source lines 75-163): header line,
then either the generated analysis followed by up to 3 recent entries, or
the raw fallback for every record when the model call throws; each section
ends with the separator. -/
def authorSection (jp : String → Option (List (String × String)))
    (fd : String → String) (sg : List ProcessedUpdate → String)
    (uM : String → Except Unit String) (teamMemberId : String)
    (memberUpdates : List TeamMemberUpdate) : String :=
  let teamMemberName :=
    jsOrStr (memberUpdates.head?.bind (fun u => u.teamMemberName)) "Unknown"
  let processedUpdates := memberUpdates.map (processOne jp)
  let prompt := analysisPromptHeader ++ sg processedUpdates
  let body :=
    match uM prompt with
    | Except.ok analysis =>
        "📋 **Productivity Analysis**:\n" ++ analysis ++ "\n\n" ++
          "📅 **Recent Updates**:\n" ++
          String.join ((recentUpdates memberUpdates).map (renderRecent jp fd))
    | Except.error _ =>
        "❌ Error generating analysis. Showing raw updates:\n\n" ++
          String.join (memberUpdates.map (renderRaw jp fd))
  "👤 **" ++ teamMemberName ++ "** (ID: " ++ teamMemberId ++ ")\n\n" ++ body ++
    "\n-------------------\n\n"

/-- The report heading (source line 55). -/
def heading (standupType : String) : String :=
  "📊 **Team Progress Report - " ++ standupType ++ " Standups**\n\n"

/-- The zero-matches message (source line 58). -/
def noUpdatesMsg (standupType : String) : String :=
  "No updates found for \"" ++ standupType ++ "\" standups in this room.\n"

/-- The report string built from an already fetched memory list. -/
def reportBody (jp : String → Option (List (String × String)))
    (pd : String → Option Int) (fd : String → String)
    (sg : List ProcessedUpdate → String) (uM : String → Except Unit String)
    (memories : List Memory) (standupType : String) : String :=
  if (updatesOf pd memories standupType).length = 0 then
    heading standupType ++ noUpdatesMsg standupType
  else
    heading standupType ++
      String.join ((groupByMember (updatesOf pd memories standupType)).map
        (fun e => authorSection jp fd sg uM e.1 e.2))

/-- `generateTeamReport`: the only uncaught throw inside the function is a
failing `getMemories` fetch (the outer catch rethrows); every other
fallible step is caught locally. -/
def generateTeamReport (jp : String → Option (List (String × String)))
    (pd : String → Option Int) (fd : String → String)
    (sg : List ProcessedUpdate → String) (uM : String → Except Unit String)
    (fetch : Except Unit (List Memory)) (standupType : String)
    (roomId : Option String) : Except Unit String :=
  match fetch with
  | Except.error e => Except.error e
  | Except.ok memories =>
      Except.ok (reportBody jp pd fd sg uM memories standupType)

/-- The part of the handler's `state` the code reads. -/
structure HState where
  standupType : Option String
deriving DecidableEq

/-- Observable outcome of one handler execution: the returned boolean, the
texts delivered through the callback in order, and how many times
`generateTeamReport` was entered. -/
structure HandlerResult where
  returned : Bool
  callbackTexts : List String
  reportCalls : Nat
deriving DecidableEq

/-- The classification prompt built from the message text. -/
def classifyPrompt (text : String) : String :=
  "Extract the standup type from this text. Try to understand the sentence and its context.\n        Return one of these values: STANDUP, SPRINT, MENTAL_HEALTH, PROJECT_STATUS, RETRO.\n        If you can\x27t determine a specific type, use STANDUP as default.\n        \n        Text: \"" ++ text ++ "\""

/-- The clarification prompt listing the valid check-in types. -/
def optionsTemplate : String :=
  "Please select a check-in type:\n          - Daily Standup (STANDUP)\n          - Sprint Check-in (SPRINT) \n          - Mental Health Check-in (MENTAL_HEALTH)\n          - Project Status Update (PROJECT_STATUS)\n          - Team Retrospective (RETRO)"

/-- The rejection message for an invalid check-in type. -/
def invalidTypeMsg : String :=
  "Invalid check-in type. Please select one of: Daily Standup, Sprint Check-in, Mental Health Check-in, Project Status Update, or Team Retrospective"

/-- The message delivered when the classification model call throws. -/
def aiErrorMsg : String :=
  "I couldn\x27t understand the check-in type. Please try again with a valid type."

/-- The apology delivered by the outer catch. -/
def errorApologyMsg : String :=
  "❌ An error occurred while generating the report. Please try again."

/-- The `validTypes` array of the handler. -/
def validTypes : List String :=
  ["standup", "sprint", "mental_health", "project_status", "retro"]

/-- `toLowerCase()` then `trim()` as applied to the selected standup type. -/
def normalizeType (s : String) : String :=
  jsTrim (jsToLowerCase s)

/-- The `generateReport.handler` control flow (source lines 188-305). -/
def handler (jp : String → Option (List (String × String)))
    (pd : String → Option Int) (fd : String → String)
    (sg : List ProcessedUpdate → String) (uM : String → Except Unit String)
    (fetch : Except Unit (List Memory)) (message : Memory)
    (state : Option HState) (hasCallback : Bool) : HandlerResult :=
  match state with
  | none => { returned := false, callbackTexts := [], reportCalls := 0 }
  | some st =>
    if !hasCallback then
      { returned := false, callbackTexts := [], reportCalls := 0 }
    else if !(jsTruthyOpt message.content.text) then
      { returned := false, callbackTexts := [], reportCalls := 0 }
    else
      match uM (classifyPrompt (message.content.text.getD "")) with
      | Except.error _ =>
          { returned := false, callbackTexts := [aiErrorMsg], reportCalls := 0 }
      | Except.ok parsedType =>
          if !(jsTruthyOpt st.standupType) && !(jsTruthyOpt (some parsedType)) then
            { returned := true, callbackTexts := [optionsTemplate], reportCalls := 0 }
          else
            let standupType := normalizeType (jsOrStr st.standupType parsedType)
            if validTypes.any (fun ty => standupType == ty) then
              match generateTeamReport jp pd fd sg uM fetch standupType
                  message.roomId with
              | Except.ok report =>
                  { returned := true, callbackTexts := [report], reportCalls := 1 }
              | Except.error _ =>
                  { returned := false, callbackTexts := [errorApologyMsg],
                    reportCalls := 1 }
            else
              { returned := false, callbackTexts := [invalidTypeMsg],
                reportCalls := 0 }

/-! ### General helper lemmas -/

theorem foldl_append_str (a : String) (l : List String) :
    List.foldl (· ++ ·) a l = a ++ List.foldl (· ++ ·) "" l := by
  induction l generalizing a with
  | nil => simp [List.foldl_nil, String.append_empty]
  | cons x l ih =>
    rw [List.foldl_cons, List.foldl_cons, ih (a ++ x), ih ("" ++ x),
      String.empty_append, String.append_assoc]

theorem strJoin_cons (s : String) (l : List String) :
    String.join (s :: l) = s ++ String.join l := by
  unfold String.join
  rw [List.foldl_cons, foldl_append_str, String.empty_append]

theorem strJoin_append (l₁ l₂ : List String) :
    String.join (l₁ ++ l₂) = String.join l₁ ++ String.join l₂ := by
  induction l₁ with
  | nil =>
    rw [List.nil_append]
    unfold String.join
    rw [List.foldl_nil, String.empty_append]
  | cons s l ih =>
    rw [List.cons_append, strJoin_cons, strJoin_cons, ih, String.append_assoc]

/-! ### Sorting lemmas -/

theorem mem_insertDesc {le : TeamMemberUpdate → TeamMemberUpdate → Bool}
    {a x : TeamMemberUpdate} {l : List TeamMemberUpdate} :
    x ∈ insertDesc le a l ↔ x = a ∨ x ∈ l := by
  induction l with
  | nil => simp [insertDesc]
  | cons b l ih =>
    simp only [insertDesc]
    split
    · simp [List.mem_cons]
    · simp only [List.mem_cons, ih]
      tauto

theorem mem_sortByDesc {le : TeamMemberUpdate → TeamMemberUpdate → Bool}
    {x : TeamMemberUpdate} {l : List TeamMemberUpdate} :
    x ∈ sortByDesc le l ↔ x ∈ l := by
  induction l with
  | nil => simp [sortByDesc]
  | cons a l ih => simp [sortByDesc, mem_insertDesc, ih]

/-- Descending order by parsed timestamp: whenever both timestamps parse,
the earlier element has the later (or equal) time. -/
def descBy (pd : String → Option Int) (a b : TeamMemberUpdate) : Prop :=
  ∀ x y, pd a.timestamp = some x → pd b.timestamp = some y → y ≤ x

theorem descBy_of_jsLe {pd : String → Option Int} {a b : TeamMemberUpdate}
    (h : jsLe pd a b = true) : descBy pd a b := by
  intro x y hx hy
  unfold jsLe at h
  rw [hx, hy] at h
  exact of_decide_eq_true h

theorem descBy_of_not_jsLe {pd : String → Option Int} {a b : TeamMemberUpdate}
    (h : jsLe pd a b = false) : descBy pd b a := by
  intro x y hx hy
  unfold jsLe at h
  rw [hy, hx] at h
  have := of_decide_eq_false h
  omega

theorem descBy_trans {pd : String → Option Int} {a b c : TeamMemberUpdate}
    (hb : (pd b.timestamp).isSome = true) (h1 : descBy pd a b)
    (h2 : descBy pd b c) : descBy pd a c := by
  intro x y hx hy
  cases hob : pd b.timestamp with
  | none => rw [hob] at hb; cases hb
  | some z => exact le_trans (h2 z y hob hy) (h1 x z hx hob)

theorem pairwise_insertDesc {pd : String → Option Int} {a : TeamMemberUpdate}
    {l : List TeamMemberUpdate} (ha : (pd a.timestamp).isSome = true)
    (hl : ∀ u ∈ l, (pd u.timestamp).isSome = true)
    (h : l.Pairwise (descBy pd)) :
    (insertDesc (jsLe pd) a l).Pairwise (descBy pd) := by
  induction l with
  | nil => exact List.pairwise_singleton ..
  | cons b l ih =>
    rw [List.pairwise_cons] at h
    obtain ⟨hb, hrest⟩ := h
    simp only [insertDesc]
    by_cases hle : jsLe pd a b = true
    · rw [if_pos hle, List.pairwise_cons]
      refine ⟨?_, List.pairwise_cons.mpr ⟨hb, hrest⟩⟩
      intro c hc
      rcases List.mem_cons.mp hc with rfl | hc'
      · exact descBy_of_jsLe hle
      · exact descBy_trans (hl b (List.mem_cons_self b l))
          (descBy_of_jsLe hle) (hb c hc')
    · rw [if_neg hle, List.pairwise_cons]
      constructor
      · intro c hc
        rcases mem_insertDesc.mp hc with rfl | hc'
        · exact descBy_of_not_jsLe (Bool.eq_false_iff.mpr hle)
        · exact hb c hc'
      · exact ih (fun u hu => hl u (List.mem_cons_of_mem b hu)) hrest

theorem pairwise_sortByDesc {pd : String → Option Int}
    {l : List TeamMemberUpdate} (hl : ∀ u ∈ l, (pd u.timestamp).isSome = true) :
    (sortByDesc (jsLe pd) l).Pairwise (descBy pd) := by
  induction l with
  | nil => exact List.Pairwise.nil
  | cons a l ih =>
    simp only [sortByDesc]
    apply pairwise_insertDesc (hl a (List.mem_cons_self a l))
    · intro u hu
      exact hl u (List.mem_cons_of_mem a (mem_sortByDesc.mp hu))
    · exact ih (fun u hu => hl u (List.mem_cons_of_mem a hu))

/-! ### Grouping lemmas -/

/-- Closed form of `groupByMember`: one entry per first-seen author, whose
list is the subsequence of all of that author's records. -/
def canonGroups (us : List TeamMemberUpdate) :
    List (String × List TeamMemberUpdate) :=
  (firstOccKeys (us.map (fun u => u.teamMemberId))).map
    (fun k => (k, us.filter (fun u => u.teamMemberId == k)))

theorem mem_foldl_dedup (l acc : List String) (x : String) :
    x ∈ List.foldl (fun acc k => if k ∈ acc then acc else acc ++ [k]) acc l ↔
      x ∈ acc ∨ x ∈ l := by
  induction l generalizing acc with
  | nil => simp
  | cons k l ih =>
    simp only [List.foldl_cons]
    rw [ih]
    by_cases hk : k ∈ acc
    · rw [if_pos hk]
      simp only [List.mem_cons]
      constructor
      · rintro (h | h)
        exacts [Or.inl h, Or.inr (Or.inr h)]
      · rintro (h | rfl | h)
        exacts [Or.inl h, Or.inl hk, Or.inr h]
    · rw [if_neg hk]
      simp only [List.mem_append, List.mem_singleton, List.mem_cons]
      tauto

theorem mem_firstOccKeys {l : List String} {x : String} :
    x ∈ firstOccKeys l ↔ x ∈ l := by
  unfold firstOccKeys
  rw [mem_foldl_dedup]
  simp

theorem nodup_foldl_dedup (l : List String) (acc : List String)
    (h : acc.Nodup) :
    (List.foldl (fun acc k => if k ∈ acc then acc else acc ++ [k]) acc l).Nodup := by
  induction l generalizing acc with
  | nil => simpa
  | cons k l ih =>
    simp only [List.foldl_cons]
    apply ih
    by_cases hk : k ∈ acc
    · rwa [if_pos hk]
    · rw [if_neg hk]
      simp [List.nodup_append, h, hk]

theorem nodup_firstOccKeys (l : List String) : (firstOccKeys l).Nodup :=
  nodup_foldl_dedup l [] List.nodup_nil

theorem firstOccKeys_snoc (l : List String) (k : String) :
    firstOccKeys (l ++ [k]) =
      if k ∈ firstOccKeys l then firstOccKeys l else firstOccKeys l ++ [k] := by
  unfold firstOccKeys
  rw [List.foldl_append]
  rfl

theorem canonGroups_keys (p : List TeamMemberUpdate) :
    (canonGroups p).map Prod.fst = firstOccKeys (p.map (fun u => u.teamMemberId)) := by
  unfold canonGroups
  rw [List.map_map]
  exact (List.map_congr_left fun k _ => rfl).trans (List.map_id _)

theorem filter_ne_author {p : List TeamMemberUpdate} {x : String}
    (h : x ∉ p.map (fun u => u.teamMemberId)) :
    p.filter (fun u => u.teamMemberId == x) = [] := by
  rw [List.filter_eq_nil_iff]
  intro a ha hax
  exact h (List.mem_map.mpr ⟨a, ha, by simpa using hax⟩)

theorem addOne_canon (p : List TeamMemberUpdate) (u : TeamMemberUpdate) :
    addOne (canonGroups p) u = canonGroups (p ++ [u]) := by
  have hkeys := canonGroups_keys p
  unfold addOne
  rw [hkeys]
  by_cases hmem : u.teamMemberId ∈ firstOccKeys (p.map (fun v => v.teamMemberId))
  · rw [if_pos hmem]
    unfold canonGroups
    rw [List.map_append, List.map_cons, List.map_nil, firstOccKeys_snoc,
      if_pos hmem, List.map_map]
    apply List.map_congr_left
    intro k _
    simp only [Function.comp]
    rw [List.filter_append]
    by_cases hk : k = u.teamMemberId
    · subst hk
      rw [if_pos rfl]
      simp [List.filter]
    · rw [if_neg hk]
      have : (u.teamMemberId == k) = false := by
        simp [Ne.symm hk]
      simp [List.filter, this, String.append_empty]
  · rw [if_neg hmem]
    unfold canonGroups
    rw [List.map_append, List.map_cons, List.map_nil, firstOccKeys_snoc,
      if_neg hmem, List.map_append]
    congr 1
    · apply List.map_congr_left
      intro k hk
      have hkp : k ∈ p.map (fun v => v.teamMemberId) := mem_firstOccKeys.mp hk
      have hne : (u.teamMemberId == k) = false := by
        have : u.teamMemberId ≠ k := by
          intro hcontra
          exact hmem (mem_firstOccKeys.mpr (hcontra ▸ hkp))
        simp [this]
      rw [List.filter_append]
      simp [List.filter, hne]
    · rw [List.map_cons, List.map_nil]
      have hnil : p.filter (fun v => v.teamMemberId == u.teamMemberId) = [] :=
        filter_ne_author (fun hc => hmem (mem_firstOccKeys.mpr hc))
      rw [List.filter_append]
      simp [List.filter, hnil]

theorem foldl_addOne_canon (us p : List TeamMemberUpdate) :
    List.foldl addOne (canonGroups p) us = canonGroups (p ++ us) := by
  induction us generalizing p with
  | nil => rw [List.append_nil]; rfl
  | cons u us ih =>
    rw [List.foldl_cons, addOne_canon, ih]
    congr 1
    rw [List.append_assoc]
    rfl

theorem groupByMember_eq_canon (us : List TeamMemberUpdate) :
    groupByMember us = canonGroups us := by
  have h := foldl_addOne_canon us []
  rw [List.nil_append] at h
  calc groupByMember us = List.foldl addOne (canonGroups []) us := rfl
    _ = canonGroups us := h

theorem groupByMember_entry {us : List TeamMemberUpdate}
    {e : String × List TeamMemberUpdate} (he : e ∈ groupByMember us) :
    e.2 = us.filter (fun u => u.teamMemberId == e.1) := by
  rw [groupByMember_eq_canon] at he
  unfold canonGroups at he
  obtain ⟨k, _, rfl⟩ := List.mem_map.mp he
  rfl

/-! ### Concrete fixtures used by witnesses and counterexamples -/

/-- A concrete stored update record. -/
def mkUpdate (id : String) (name : Option String) (ts : String)
    (ans : Option String) : TeamMemberUpdate :=
  { teamMemberId := id, teamMemberName := name, serverName := none,
    checkInType := some "standup", timestamp := ts, answers := ans }

/-- Wrap an update record as a stored `team-member-update` memory. -/
def memOf (u : TeamMemberUpdate) : Memory :=
  { content := { type := some "team-member-update", update := some u, text := none },
    roomId := none }

def updA1 : TeamMemberUpdate := mkUpdate "a1" (some "Alice") "2024-01-02T09" (some "ansA")

def updA2 : TeamMemberUpdate := mkUpdate "a1" (some "Alice") "2024-01-01" (some "ansA2")

def updB1 : TeamMemberUpdate := mkUpdate "b1" (some "Bob") "2024-01-01T09" (some "ansB")

def updBadAns : TeamMemberUpdate := mkUpdate "c1" (some "Carol") "2024-01-03" (some "bad")

def updBadTime : TeamMemberUpdate := mkUpdate "c1" (some "Carol") "not-a-date" (some "ansC")

def mems3 : List Memory := [memOf updA2, memOf updB1, memOf updA1]

/-- Concrete `JSON.parse` oracle: fails exactly on the string "bad". -/
def jpW : String → Option (List (String × String)) :=
  fun s => if s == "bad" then none else some [("Q", "A")]

/-- Concrete timestamp parser: the timestamp's length as its time. -/
def pd0 : String → Option Int := fun s => some (Int.ofNat s.length)

/-- Concrete timestamp parser on which every timestamp is `NaN`. -/
def pdNone : String → Option Int := fun _ => none

/-- Concrete date renderer. -/
def fd0 : String → String := fun s => s

/-- Concrete `JSON.stringify` oracle. -/
def sg0 : List ProcessedUpdate → String := fun _ => ""

/-- Concrete model oracle that always succeeds. -/
def uM0 : String → Except Unit String := fun _ => Except.ok "ANALYSIS"

/-- Concrete model oracle that always throws. -/
def uMfail : String → Except Unit String := fun _ => Except.error ()

/-- Concrete model oracle classifying every text as the invalid "BOGUS". -/
def uM9 : String → Except Unit String := fun _ => Except.ok "BOGUS"

/-- A message carrying request text. -/
def msgText (t : Option String) : Memory :=
  { content := { type := none, update := none, text := t }, roomId := none }

/-! ### Claim theorems -/

/-- Evaluation of `generateTeamReport` on a successful fetch. -/
theorem generateTeamReport_ok (jp : String → Option (List (String × String)))
    (pd : String → Option Int) (fd : String → String)
    (sg : List ProcessedUpdate → String) (uM : String → Except Unit String)
    (memories : List Memory) (st : String) (roomId : Option String) :
    generateTeamReport jp pd fd sg uM (Except.ok memories) st roomId =
      Except.ok (reportBody jp pd fd sg uM memories st) := rfl

/-- C1: if zero stored records survive the filter (the `updates` array the
code length-tests is empty), `generateTeamReport` returns exactly the
heading followed by the `no updates found for <category>` message — no
author sections. -/
theorem noMatch_exact_message (jp : String → Option (List (String × String)))
    (pd : String → Option Int) (fd : String → String)
    (sg : List ProcessedUpdate → String) (uM : String → Except Unit String)
    (memories : List Memory) (st : String) (roomId : Option String)
    (h : updatesOf pd memories st = []) :
    generateTeamReport jp pd fd sg uM (Except.ok memories) st roomId =
      Except.ok (heading st ++ noUpdatesMsg st) := by
  rw [generateTeamReport_ok]
  unfold reportBody
  rw [h]
  rfl

/-- Witness for C1 at a concrete input with no matching records. -/
theorem noMatch_exact_message_check :
    generateTeamReport jpW pd0 fd0 sg0 uM0
        (Except.ok [msgText (some "hello")]) "sprint" none =
      Except.ok (heading "sprint" ++ noUpdatesMsg "sprint") :=
  noMatch_exact_message jpW pd0 fd0 sg0 uM0 [msgText (some "hello")]
    "sprint" none (by decide)

/-- Replace the `checkInType` field of the embedded update record, leaving
everything else unchanged. -/
def withCheckIn (m : Memory) (c : Option String) : Memory :=
  { m with content := { m.content with
      update := m.content.update.map (fun u => { u with checkInType := c }) } }

/-- C2: the memory filter keeps a record exactly when its content type tag
is `team-member-update`; the requested standup type and the record's own
`checkInType` have no effect on the decision. -/
theorem filter_tag_only (st st' : String) (m : Memory) (c : Option String) :
    updateFilter st m = (m.content.type == some "team-member-update")
    ∧ updateFilter st m = updateFilter st' m
    ∧ updateFilter st (withCheckIn m c) = updateFilter st m :=
  ⟨rfl, rfl, by cases hm : m.content.update <;> rfl⟩

/-- C10: on every fetched memory list and every requested category, the
returned report starts with the fixed heading line containing the requested
category. -/
theorem report_heading_prefix (jp : String → Option (List (String × String)))
    (pd : String → Option Int) (fd : String → String)
    (sg : List ProcessedUpdate → String) (uM : String → Except Unit String)
    (memories : List Memory) (st : String) (roomId : Option String) :
    ∃ r, generateTeamReport jp pd fd sg uM (Except.ok memories) st roomId =
      Except.ok (("📊 **Team Progress Report - " ++ st ++ " Standups**") ++ r) := by
  rw [generateTeamReport_ok]
  unfold reportBody heading
  have hsplit : (" Standups**\n\n" : String) = " Standups**" ++ "\n\n" := rfl
  by_cases hz : (updatesOf pd memories st).length = 0
  · refine ⟨"\n\n" ++ noUpdatesMsg st, ?_⟩
    rw [if_pos hz, hsplit]
    simp only [String.append_assoc]
  · refine ⟨"\n\n" ++ String.join ((groupByMember (updatesOf pd memories st)).map
      (fun e => authorSection jp fd sg uM e.1 e.2)), ?_⟩
    rw [if_neg hz, hsplit]
    simp only [String.append_assoc]

/-- C5: grouping of the timestamp-sorted filtered records is stable — the
section keys are the authors in first-occurrence order and without
duplicates, and each section carries exactly all of its author's records in
input order (an author is never split across two sections). -/
theorem grouping_stable_first_occurrence (pd : String → Option Int)
    (memories : List Memory) (st : String) :
    ((groupByMember (updatesOf pd memories st)).map Prod.fst =
        firstOccKeys ((updatesOf pd memories st).map (fun u => u.teamMemberId)))
    ∧ ((groupByMember (updatesOf pd memories st)).map Prod.fst).Nodup
    ∧ ∀ e ∈ groupByMember (updatesOf pd memories st),
        e.2 = (updatesOf pd memories st).filter
          (fun u => u.teamMemberId == e.1) := by
  refine ⟨?_, ?_, ?_⟩
  · rw [groupByMember_eq_canon]
    exact canonGroups_keys _
  · rw [groupByMember_eq_canon, canonGroups_keys]
    exact nodup_firstOccKeys _
  · intro e he
    exact groupByMember_entry he

/-- C6: in every section of the report, the entries shown as recent are the
first at most 3 of the member's records and, whenever the input timestamps
parse, they are ordered by timestamp descending. -/
theorem recent_top3_descending (pd : String → Option Int)
    (memories : List Memory) (st : String)
    (hp : ∀ u ∈ rawUpdates memories st, (pd u.timestamp).isSome = true) :
    ∀ e ∈ groupByMember (updatesOf pd memories st),
      (recentUpdates e.2).length ≤ 3
      ∧ (recentUpdates e.2).Pairwise (descBy pd) := by
  intro e he
  have hsorted : (updatesOf pd memories st).Pairwise (descBy pd) := by
    exact pairwise_sortByDesc hp
  have hent := groupByMember_entry he
  constructor
  · exact List.length_take_le 3 _
  · unfold recentUpdates
    rw [hent]
    have hfil : ((updatesOf pd memories st).filter
        (fun u => u.teamMemberId == e.1)).Pairwise (descBy pd) :=
      hsorted.sublist (List.filter_sublist _)
    exact hfil.sublist (List.take_sublist 3 _)

/-- Witness for C6: applies the theorem to a concrete store with two
authors, Alice holding two records, and reads off Alice's section. -/
theorem recent_top3_descending_check :
    (recentUpdates [updA1, updA2]).length ≤ 3
    ∧ (recentUpdates [updA1, updA2]).Pairwise (descBy pd0) :=
  recent_top3_descending pd0 mems3 "standup" (by decide)
    ("a1", [updA1, updA2]) (by decide)

/-- Helper for the C4 counterexample: a decidable view of a successful
`Except` result. -/
def exceptIsOk (x : Except Unit String) : Bool :=
  match x with
  | Except.ok _ => true
  | Except.error _ => false

/-- C4 counterexample: a stored record whose timestamp does not parse
(`new Date(...)` yields `NaN`) does not make the operation fail — the
record survives filtering and sorting and `generateTeamReport` still
returns a report; no `ParseError` exists anywhere in the code. -/
theorem unparseable_timestamp_no_error :
    pdNone "not-a-date" = none
    ∧ updatesOf pdNone [memOf updBadTime] "standup" = [updBadTime]
    ∧ exceptIsOk (generateTeamReport jpW pdNone fd0 sg0 uM0
        (Except.ok [memOf updBadTime]) "standup" none) = true :=
  ⟨rfl, by decide, rfl⟩

/-- C4 as amended: sorting of the filtered records is descending by
timestamp whenever the timestamps parse, and a record whose timestamp fails
to parse never causes a failure — `generateTeamReport` always returns a
report on a successful fetch (the unparseable comparison is the `NaN`
comparator result, not an error). -/
theorem sort_descending_and_total :
    (∀ (pd : String → Option Int) (memories : List Memory) (st : String),
        (∀ u ∈ rawUpdates memories st, (pd u.timestamp).isSome = true) →
          (updatesOf pd memories st).Pairwise (descBy pd))
    ∧ (∀ (jp : String → Option (List (String × String)))
        (pd : String → Option Int) (fd : String → String)
        (sg : List ProcessedUpdate → String) (uM : String → Except Unit String)
        (memories : List Memory) (st : String) (roomId : Option String),
        ∃ s, generateTeamReport jp pd fd sg uM (Except.ok memories) st roomId =
          Except.ok s) := by
  constructor
  · intro pd memories st h
    exact pairwise_sortByDesc h
  · intro jp pd fd sg uM memories st roomId
    exact ⟨_, rfl⟩

/-- Witness for C4's amended claim at concrete inputs. -/
theorem sort_descending_and_total_check :
    (updatesOf pd0 mems3 "standup").Pairwise (descBy pd0)
    ∧ ∃ s, generateTeamReport jpW pd0 fd0 sg0 uM0 (Except.ok mems3)
        "standup" none = Except.ok s :=
  ⟨sort_descending_and_total.1 pd0 mems3 "standup" (by decide),
    sort_descending_and_total.2 jpW pd0 fd0 sg0 uM0 mems3 "standup" none⟩

/-- C7: a record whose answers encoding fails to decode degrades only its
own rendering — in the recent-updates display it contributes its timestamp
line plus the fixed error line while every other record's rendering is
unchanged, and in the analysis payload it is replaced by the raw-record
fallback while the others are processed independently. -/
theorem decode_failure_isolated (jp : String → Option (List (String × String)))
    (fd : String → String) (pre post : List TeamMemberUpdate)
    (u : TeamMemberUpdate) (h : answersVal jp u = none) :
    String.join ((pre ++ u :: post).map (renderRecent jp fd)) =
        String.join (pre.map (renderRecent jp fd)) ++
          ("\n🕒 " ++ fd u.timestamp ++ "\n" ++ "▫️ Error parsing update details\n") ++
          String.join (post.map (renderRecent jp fd))
    ∧ (pre ++ u :: post).map (processOne jp) =
        pre.map (processOne jp) ++
          ProcessedUpdate.raw u :: post.map (processOne jp) := by
  have hu : renderRecent jp fd u =
      "\n🕒 " ++ fd u.timestamp ++ "\n" ++ "▫️ Error parsing update details\n" := by
    unfold renderRecent answersBlock
    rw [h]
  have hpu : processOne jp u = ProcessedUpdate.raw u := by
    unfold processOne
    rw [h]
  constructor
  · rw [List.map_append, List.map_cons, strJoin_append, strJoin_cons, hu,
      ← String.append_assoc]
  · rw [List.map_append, List.map_cons, hpu]

/-- Witness for C7: one malformed record between two well-formed ones. -/
theorem decode_failure_isolated_check :
    String.join (([updA1] ++ updBadAns :: [updB1]).map (renderRecent jpW fd0)) =
        String.join ([updA1].map (renderRecent jpW fd0)) ++
          ("\n🕒 " ++ fd0 updBadAns.timestamp ++ "\n" ++
            "▫️ Error parsing update details\n") ++
          String.join ([updB1].map (renderRecent jpW fd0))
    ∧ ([updA1] ++ updBadAns :: [updB1]).map (processOne jpW) =
        [updA1].map (processOne jpW) ++
          ProcessedUpdate.raw updBadAns :: [updB1].map (processOne jpW) :=
  decode_failure_isolated jpW fd0 [updA1] [updB1] updBadAns (by decide)

/-- C8: when the text-generation call for a member fails, that member's
section falls back to the raw question/answer display of all of the
member's records, and this fallback is total — a record whose answers
encoding is malformed renders as the fixed error line rather than
failing. -/
theorem genfail_raw_fallback_total (jp : String → Option (List (String × String)))
    (fd : String → String) (sg : List ProcessedUpdate → String)
    (uM : String → Except Unit String) (k : String)
    (us : List TeamMemberUpdate)
    (h : uM (analysisPromptHeader ++ sg (us.map (processOne jp))) =
      Except.error ()) :
    authorSection jp fd sg uM k us =
      "👤 **" ++ jsOrStr (us.head?.bind (fun u => u.teamMemberName)) "Unknown" ++
        "** (ID: " ++ k ++ ")\n\n" ++
        ("❌ Error generating analysis. Showing raw updates:\n\n" ++
          String.join (us.map (renderRaw jp fd))) ++
        "\n-------------------\n\n"
    ∧ ∀ u ∈ us, answersVal jp u = none →
        renderRaw jp fd u =
          "Update from " ++ fd u.timestamp ++ ":\n" ++
            "▫️ Error parsing update details\n" := by
  constructor
  · unfold authorSection
    dsimp only
    rw [h]
  · intro u _ hun
    unfold renderRaw answersBlock
    rw [hun]

/-- Witness for C8: failing model oracle over a single malformed record. -/
theorem genfail_raw_fallback_total_check :
    authorSection jpW fd0 sg0 uMfail "c1" [updBadAns] =
      "👤 **" ++ jsOrStr ([updBadAns].head?.bind (fun u => u.teamMemberName))
          "Unknown" ++
        "** (ID: " ++ "c1" ++ ")\n\n" ++
        ("❌ Error generating analysis. Showing raw updates:\n\n" ++
          String.join ([updBadAns].map (renderRaw jpW fd0))) ++
        "\n-------------------\n\n"
    ∧ ∀ u ∈ [updBadAns], answersVal jpW u = none →
        renderRaw jpW fd0 u =
          "Update from " ++ fd0 u.timestamp ++ ":\n" ++
            "▫️ Error parsing update details\n" :=
  genfail_raw_fallback_total jpW fd0 sg0 uMfail "c1" [updBadAns] rfl

/-- C3 as amended: the delivery callback is invoked exactly once per
handler execution on every code path, except the three internal early
returns — state absent, callback absent, or message text absent/empty —
where it is invoked zero times. -/
theorem callback_invocation_count (jp : String → Option (List (String × String)))
    (pd : String → Option Int) (fd : String → String)
    (sg : List ProcessedUpdate → String) (uM : String → Except Unit String)
    (fetch : Except Unit (List Memory)) (message : Memory)
    (state : Option HState) (hasCallback : Bool) :
    (handler jp pd fd sg uM fetch message state hasCallback).callbackTexts.length =
      if state.isSome ∧ hasCallback = true
          ∧ jsTruthyOpt message.content.text = true then 1 else 0 := by
  cases state with
  | none => rfl
  | some st =>
    cases hasCallback with
    | false => rfl
    | true =>
      cases htx : jsTruthyOpt message.content.text with
      | false => simp [handler, htx]
      | true =>
        cases huM : uM (classifyPrompt (message.content.text.getD "")) with
        | error e => simp [handler, htx, huM]
        | ok pt =>
          by_cases hask :
              (!(jsTruthyOpt st.standupType) && !(jsTruthyOpt (some pt))) = true
          · simp [handler, htx, huM, hask]
          · by_cases hval : validTypes.any
                (fun ty => normalizeType (jsOrStr st.standupType pt) == ty) = true
            · cases hfetch : fetch with
              | ok mems =>
                simp [handler, htx, huM, hask, hval, hfetch, generateTeamReport]
              | error e =>
                simp [handler, htx, huM, hask, hval, hfetch, generateTeamReport]
            · simp [handler, htx, huM, hask, hval]

/-- C3 counterexample: with state present and a callback available but the
message carrying no text, the handler returns without ever invoking the
callback — so "exactly once except when state is absent" fails. -/
theorem callback_skipped_without_text :
    (some (HState.mk none)).isSome = true
    ∧ (handler jpW pd0 fd0 sg0 uM0 (Except.ok []) (msgText none)
        (some (HState.mk none)) true).callbackTexts.length = 0 :=
  ⟨rfl, rfl⟩

/-- C9: whenever the handler reaches validation and the normalized
classification is not one of the five valid types, it delivers exactly the
rejection message and never enters the report generator. -/
theorem invalid_type_rejected (jp : String → Option (List (String × String)))
    (pd : String → Option Int) (fd : String → String)
    (sg : List ProcessedUpdate → String) (uM : String → Except Unit String)
    (fetch : Except Unit (List Memory)) (message : Memory)
    (sst : Option String) (text pt : String)
    (htext : message.content.text = some text)
    (hne : text ≠ "")
    (hcls : uM (classifyPrompt text) = Except.ok pt)
    (hnb : jsTruthyOpt sst = true ∨ pt ≠ "")
    (hinv : validTypes.any (fun ty => normalizeType (jsOrStr sst pt) == ty) = false) :
    handler jp pd fd sg uM fetch message (some (HState.mk sst)) true =
      { returned := false, callbackTexts := [invalidTypeMsg], reportCalls := 0 } := by
  have hask : (!(jsTruthyOpt sst) && !(jsTruthyOpt (some pt))) = false := by
    rcases hnb with h | h
    · simp [h]
    · simp [jsTruthyOpt, h]
  have htx : jsTruthyOpt (some text) = true := by
    simp [jsTruthyOpt, hne]
  simp [handler, htext, htx, hcls, hask, hinv]

/-- Witness for C9: the model classifies the request as "BOGUS", which
normalizes outside the enumeration and is rejected without generating. -/
theorem invalid_type_rejected_check :
    handler jpW pd0 fd0 sg0 uM9 (Except.ok [])
        (msgText (some "show me the vibes report")) (some (HState.mk none)) true =
      { returned := false, callbackTexts := [invalidTypeMsg], reportCalls := 0 } :=
  invalid_type_rejected jpW pd0 fd0 sg0 uM9 (Except.ok [])
    (msgText (some "show me the vibes report")) none
    "show me the vibes report" "BOGUS" rfl (by decide) rfl
    (Or.inr (by decide)) (by decide)
